import Mathlib

/-!
Verification of the lowering core of a TypeScript-to-Lua compiler
(roblox-ts).  The development shallowly embeds the three source files

  * src/compiler/function.ts      (function / return-statement lowering)
  * src/compiler/indexed.ts       (property and element access lowering)
  * src/TSTransformer/util/transformParameters.ts  (parameter lowering)

as executable Lean definitions and proves the specified properties of
them.  Parts of the compiler that the three files call but that are not
part of the shown sources (CompilerState, compileExpression for general
nodes, the ts-morph front-end queries, the Lua coroutine runtime) are
modelled explicitly; each such definition carries a doc comment saying
what it models and where it comes from.
-/

namespace RobloxTS

/-! ## Basic string utilities -/

/-- JavaScript `Array.prototype.join(", ")` on a list of strings. -/
def joinComma : List String → String
  | [] => ""
  | [s] => s
  | s :: rest => s ++ ", " ++ joinComma rest

/-- Concatenation of a list of strings (JavaScript `+=` accumulation). -/
def concatAll : List String → String
  | [] => ""
  | s :: rest => s ++ concatAll rest

/-- JavaScript `String.prototype.substr(start, len)` (for non-negative
arguments; a negative JavaScript `len` yields the empty string, which the
truncated subtraction `Nat.sub` at every call site reproduces). -/
def jsSubstr (s : String) (start len : Nat) : String :=
  String.mk ((s.data.drop start).take len)

/-- JavaScript `str.indexOf(c) !== -1` for a single character (the
source checks `argExp.getText().indexOf("e") === -1`). -/
def containsChar (s : String) (c : Char) : Bool :=
  s.data.contains c

/-- Decimal digit character for `n % 10`. -/
def natDigitChar (n : Nat) : Char :=
  Char.ofNat (48 + n % 10)

/-- Fuelled decimal printer (fuel is always taken `> n`). -/
def natDecimalAux : Nat → Nat → List Char
  | 0, _ => []
  | fuel + 1, n =>
    if n < 10 then [natDigitChar n]
    else natDecimalAux fuel (n / 10) ++ [natDigitChar (n % 10)]

/-- Decimal rendering of a natural number (JavaScript `Number.toString()`
for non-negative integers). -/
def natDecimal (n : Nat) : String :=
  String.mk (natDecimalAux (n + 1) n)

/-- Decimal rendering of an integer (JavaScript number-to-string for
integral values). -/
def intDecimal (n : Int) : String :=
  if n < 0 then "-" ++ natDecimal n.natAbs else natDecimal n.toNat

/-! ## CompilerState

The old compiler threads a mutable `CompilerState` through every
`compile*` function.  `CompilerState.ts` is not among the shown sources,
so the state and its operations are modelled from the spec (§3, §4.1):
an indentation string, a monotonic fresh-id counter, a stack of
"preceding statement" buffers, a hoist registry, a saved-counter stack
for `pushIdStack`/`popIdStack`, and the `usesTSLibrary` flag.  -/

structure CompilerState where
  indent : String
  idCounter : Nat
  contexts : List (List String)
  hoistStack : List String
  idStack : List Nat
  usesTSLibrary : Bool
deriving DecidableEq

/-- Modelled from the spec (§4.1): entering a preceding-statement
context pushes a fresh empty statement buffer. -/
def CompilerState.enterPrecedingStatementContext (s : CompilerState) : CompilerState :=
  { s with contexts := [] :: s.contexts }

/-- Modelled from the spec (§4.1): exiting the innermost
preceding-statement context pops its buffer and joins the buffered
statements in order.  (Exiting with no open context is an internal
fault in the real compiler; it is unreachable in the lowerings below,
which always pair enter/exit.) -/
def CompilerState.exitPrecedingStatementContextAndJoin (s : CompilerState) :
    String × CompilerState :=
  match s.contexts with
  | ctx :: rest => (concatAll ctx, { s with contexts := rest })
  | [] => ("", s)

/-- Modelled from the spec (§4.1): appends a statement to the innermost
open preceding-statement buffer. -/
def CompilerState.pushPrecedingStatements (s : CompilerState) (stmt : String) : CompilerState :=
  match s.contexts with
  | ctx :: rest => { s with contexts := (ctx ++ [stmt]) :: rest }
  | [] => { s with contexts := [[stmt]] }

/-- Modelled from the spec (§4.1): `getNewId` returns a fresh synthetic
temporary of the form `_<n>` and bumps the counter. -/
def CompilerState.getNewId (s : CompilerState) : String × CompilerState :=
  ("_" ++ natDecimal s.idCounter, { s with idCounter := s.idCounter + 1 })

/-- Modelled from the spec (§4.2): extracts an expression string into a
fresh preceding-statement temporary (`local _n = expStr;`) and returns
the temporary's name. -/
def CompilerState.pushPrecedingStatementToNextId (s : CompilerState) (expStr : String) :
    String × CompilerState :=
  let (id, s1) := s.getNewId
  (id, s1.pushPrecedingStatements (s1.indent ++ "local " ++ id ++ " = " ++ expStr ++ ";\n"))

/-- Modelled from the spec: indentation is one tab per nesting level. -/
def CompilerState.pushIndent (s : CompilerState) : CompilerState :=
  { s with indent := s.indent ++ "\t" }

/-- Modelled from the spec: undoes one `pushIndent`. -/
def CompilerState.popIndent (s : CompilerState) : CompilerState :=
  { s with indent := String.mk s.indent.data.dropLast }

/-- Modelled from the spec (§4.1): saves the fresh-id counter. -/
def CompilerState.pushIdStack (s : CompilerState) : CompilerState :=
  { s with idStack := s.idCounter :: s.idStack }

/-- Modelled from the spec (§4.1): restores the fresh-id counter saved by
the matching `pushIdStack`. -/
def CompilerState.popIdStack (s : CompilerState) : CompilerState :=
  match s.idStack with
  | n :: rest => { s with idCounter := n, idStack := rest }
  | [] => s

/-- Source `state.pushHoistStack(name)`: registers a name for hoisted
declaration at the top of the enclosing block. -/
def CompilerState.pushHoistStack (s : CompilerState) (name : String) : CompilerState :=
  { s with hoistStack := name :: s.hoistStack }

/-! ## The typed source AST

The front end hands the lowering a fully resolved ts-morph AST.  The
claims depend on a fixed set of node shapes and front-end queries
(`TypeGuards.is*`, `getType`, symbol value declarations, enum member
values); these are embedded as an inductive `Expr` whose constructors
carry the answers of the relevant front-end oracles as fields. -/

/-- A Lua value of a constant enum member (`EnumMember.getValue()`
returns a number, a string, or `undefined`; the `undefined` case is
`Option.none` at the use site). -/
inductive EnumMemberValue where
  | numVal (n : Int)
  | strVal (s : String)
deriving DecidableEq

/-- `symbol.getValueDeclaration()` outcomes distinguished by
`compilePropertyAccessExpression` (src/compiler/indexed.ts, lines
113-143): function-like declarations, enum declarations (with constness
and member table), class declarations, anything else. -/
inductive ValueDecl where
  | functionLike
  | enumDecl (isConstEnum : Bool) (members : List (String × Option EnumMemberValue))
  | classDecl
  | otherDecl
deriving DecidableEq

/-- The static-type facts the lowered files query about an expression:
`isArrayType(exp.getType())`, `isNumberType(exp.getType())`, and
`exp.getType().getSymbol()?.getValueDeclaration()`. -/
structure TypeInfo where
  isArrayType : Bool
  isNumberType : Bool
  symbolValueDecl : Option ValueDecl
deriving DecidableEq

/-- The `VariableStatement` ancestor data consulted by
`isIdentifierDefinedInExportLet` (src/compiler/indexed.ts, lines 27-40):
whether it has the `export` keyword and its declaration kind. -/
inductive VariableDeclarationKind where
  | constKind
  | letKind
  | varKind
deriving DecidableEq

structure VariableStatementInfo where
  hasExportKeyword : Bool
  declarationKind : VariableDeclarationKind
deriving DecidableEq

/-- Source expressions, restricted to the shapes the three lowered files
dispatch on.  Sub-terms whose own compilation is performed by compiler
modules outside the shown sources carry their compiled text as a field
(an oracle for `compileExpression` / `compileCallExpression`):

  * `call tupleCall returnTypeIsArray plain unwrapped info` - a call
    expression; `tupleCall` answers `isTupleReturnTypeCall`,
    `returnTypeIsArray` answers `isArrayType(getReturnType())`, `plain`
    is `compileCallExpression(state, e, false)` and `unwrapped` is
    `compileCallExpression(state, e, true)` (multi-value form).
  * `numericLiteral text value compiledText info` - a numeric literal
    with source text `text`; `value` models
    `Number(compileNumericLiteral(state, e))` (the claims concern
    integer indices, so values are naturals) and `compiledText` is the
    text `compileExpression` emits for it.
  * `ident name defs info` - an identifier; `defs` lists, per
    ts-morph definition of the identifier, its enclosing
    `VariableStatement` data if any.
  * `newExpr inheritsArrayConstructor compiled info` - a `new` expression;
    the flag answers `subExpType.isObject() && inheritsFrom(subExpType,
    "ArrayConstructor")`.
  * `otherExpr compiled info` - any other expression, with its compiled
    text. -/
inductive Expr where
  | paren (e : Expr)
  | nonNull (e : Expr)
  | arrayLiteral (elems : List String) (info : TypeInfo)
  | call (tupleCall : Bool) (returnTypeIsArray : Bool)
      (plain : String) (unwrapped : String) (info : TypeInfo)
  | numericLiteral (text : String) (value : Nat) (compiledText : String) (info : TypeInfo)
  | ident (name : String) (defs : List (Option VariableStatementInfo)) (info : TypeInfo)
  | superExpr (baseClassName : String) (info : TypeInfo)
  | newExpr (inheritsArrayConstructor : Bool) (compiled : String) (info : TypeInfo)
  | otherExpr (compiled : String) (info : TypeInfo)
deriving DecidableEq

/-- `exp.getType()` facts; parenthesized and non-null wrappers have the
type of their operand. -/
def Expr.typeInfo : Expr → TypeInfo
  | .paren e => e.typeInfo
  | .nonNull e => e.typeInfo
  | .arrayLiteral _ i => i
  | .call _ _ _ _ i => i
  | .numericLiteral _ _ _ i => i
  | .ident _ _ i => i
  | .superExpr _ i => i
  | .newExpr _ _ i => i
  | .otherExpr _ i => i

/-- `ts.TypeGuards.isArrayLiteralExpression`. -/
def Expr.isArrayLiteralExpression : Expr → Bool
  | .arrayLiteral _ _ => true
  | _ => false

/-- `ts.TypeGuards.isCallExpression`. -/
def Expr.isCallExpression : Expr → Bool
  | .call _ _ _ _ _ => true
  | _ => false

/-- `isTupleReturnTypeCall(exp)` (typeUtilities oracle carried on call
nodes; `false` on every non-call). -/
def Expr.isTupleReturnTypeCall : Expr → Bool
  | .call tupleCall _ _ _ _ => tupleCall
  | _ => false

/-- `isArrayType(expNode.getReturnType())` for call nodes. -/
def Expr.callReturnTypeIsArray : Expr → Bool
  | .call _ r _ _ _ => r
  | _ => false

/-- `ts.TypeGuards.isIdentifier`. -/
def Expr.isIdentifier : Expr → Bool
  | .ident _ _ _ => true
  | _ => false

/-- `ts.TypeGuards.isSuperExpression`. -/
def Expr.isSuperExpression : Expr → Bool
  | .superExpr _ _ => true
  | _ => false

/-- `ts.TypeGuards.isNumericLiteral` together with the literal's source
text (`getText()`) and numeric value. -/
def Expr.numericLiteralData : Expr → Option (String × Nat)
  | .numericLiteral t v _ _ => some (t, v)
  | _ => none

/-- Source `isIdentifierDefinedInExportLet` (src/compiler/indexed.ts,
lines 27-40): some definition of the identifier sits under a
`VariableStatement` that has the `export` keyword and declaration kind
`let`. -/
def isIdentifierDefinedInExportLet (defs : List (Option VariableStatementInfo)) : Bool :=
  defs.any fun d =>
    match d with
    | some v => v.hasExportKeyword && v.declarationKind == .letKind
    | none => false

/-- Whether the expression is an identifier defined in an `export let`
statement (`false` for non-identifiers, matching the short-circuit
`TypeGuards.isIdentifier(exp) && isIdentifierDefinedInExportLet(exp)`). -/
def Expr.identInExportLet : Expr → Bool
  | .ident _ defs _ => isIdentifierDefinedInExportLet defs
  | _ => false

/-- Modelled: `compileExpression` (the generic expression dispatcher,
not among the shown sources).  Wrapper nodes delegate; an array literal
compiles to the native Lua table-literal syntax `{ e1, e2, ... }` (spec
§6: "sequential containers are constructed with the target's native
literal-table syntax"); identifiers compile to their name; every other
node yields its oracle `compiled` field. -/
def compileExpression (state : CompilerState) (e : Expr) : String :=
  match e with
  | .paren e => "(" ++ compileExpression state e ++ ")"
  | .nonNull e => compileExpression state e
  | .arrayLiteral elems _ => "\x7b " ++ joinComma elems ++ " \x7d"
  | .call _ _ plain _ _ => plain
  | .numericLiteral _ _ compiledText _ => compiledText
  | .ident name _ _ => name
  | .superExpr _ _ => "super"
  | .newExpr _ compiled _ => compiled
  | .otherExpr compiled _ => compiled

/-- Modelled: `compileCallExpression(state, e, doNotWrapTupleReturn)`
(not among the shown sources).  With `doNotWrapTupleReturn = true` it
returns the call's raw multi-value form, otherwise the single-value
form; both are oracle fields of the call node. -/
def compileCallExpression (state : CompilerState) (e : Expr)
    (doNotWrapTupleReturn : Bool) : String :=
  match e with
  | .call _ _ plain unwrapped _ => if doNotWrapTupleReturn then unwrapped else plain
  | e => compileExpression state e

/-! ## Function nodes (src/compiler/function.ts) -/

/-- The function-like node kinds accepted by
`getFirstMemberWithParameters` (src/compiler/function.ts, lines 16-31). -/
inductive FunctionKind where
  | functionExpr
  | arrowFunction
  | functionDecl
  | constructorDecl
  | methodDecl
  | getAccessor
  | setAccessor
deriving DecidableEq

/-- A declared parameter as consulted by `giveInitialSelfParameter`
(src/compiler/function.ts, lines 184-213): the text of its first
`Identifier` child (none for a destructuring pattern), the text of its
declared type (`getType().getText()`), and whether its type equals the
enclosing class's type. -/
structure ParamInfo where
  firstIdentText : Option String
  typeText : String
  typeEqualsClassType : Bool
deriving DecidableEq

/-- A function-like node (`HasParameters`), carrying the front-end facts
the lowering queries: its kind, `isTupleReturnType`, `isAsync()`,
`isGenerator()`, `isIterableIterator(getReturnType())`, its declared
parameters, whether a class declaration/expression ancestor exists, the
names and initializer statements produced by `getParameterData` (a
module outside the shown sources), and - for function declarations -
whether `nameNode && shouldHoist(node, nameNode)` holds. -/
structure FunctionNode where
  kind : FunctionKind
  tupleReturnType : Bool
  isAsync : Bool
  generatorFlag : Bool
  returnTypeIsIterableIterator : Bool
  parameters : List ParamInfo
  hasClassParent : Bool
  paramData : List String
  initializerData : List String
  nameNodeHoist : Bool
deriving DecidableEq

/-- Ancestor chain entries for `node.getAncestors()` as classified by
`getFirstMemberWithParameters`. -/
inductive AncestorNode where
  | funcLike (f : FunctionNode)
  | otherNode
deriving DecidableEq

/-- Source `getFirstMemberWithParameters` (src/compiler/function.ts,
lines 16-31): first function-like node in the list. -/
def getFirstMemberWithParameters : List AncestorNode → Option FunctionNode
  | [] => none
  | .funcLike f :: _ => some f
  | .otherNode :: rest => getFirstMemberWithParameters rest

/-- The `while` loop of `getReturnStrFromExpression`
(src/compiler/function.ts, lines 34-36): strip parenthesized and
non-null wrappers. -/
def stripParens : Expr → Expr
  | .paren e => stripParens e
  | .nonNull e => stripParens e
  | e => e

/-- `func && isTupleReturnType(func)` (src/compiler/function.ts,
line 57). -/
def funcIsTupleReturn : Option FunctionNode → Bool
  | some f => f.tupleReturnType
  | none => false

/-- Source `getReturnStrFromExpression` (src/compiler/function.ts, lines
33-71): strips wrappers, then, when the enclosing function has a tuple
return type, (a) unpacks an array-literal operand by stripping the
table-literal's delimiters (`expStr.substr(2, expStr.length - 4)`),
(b) forwards a tuple-returning call via
`compileCallExpression(state, exp, true)`, (c) otherwise wraps the
compiled operand in `unpack(...)`; for any other return type, emits a
single-value return. -/
def getReturnStrFromExpression (state : CompilerState) (exp0 : Expr)
    (func : Option FunctionNode) : String :=
  let exp := stripParens exp0
  if funcIsTupleReturn func then
    if exp.isArrayLiteralExpression then
      let expStr := compileExpression state exp
      let expStr := jsSubstr expStr 2 (expStr.length - 4)
      "return " ++ expStr ++ ";"
    else if exp.isCallExpression && exp.isTupleReturnTypeCall then
      let expStr := compileCallExpression state exp true
      "return " ++ expStr ++ ";"
    else
      let expStr := compileExpression state exp
      "return unpack(" ++ expStr ++ ");"
  else
    "return " ++ compileExpression state exp ++ ";"

/-! ## Errors (src/errors/CompilerError.ts, modelled)

`CompilerError.ts` is not among the shown sources; the error class is
modelled from its uses: a message, the offending source node (modelled
as a numeric node identity), and a stable `CompilerErrorType` tag.  The
tags are the ones the shown sources throw, plus one for the diagnostic
reported by the `isIterableIterator` front-end check and one standing
for exceptions of external oracles (ts-morph `getMemberOrThrow`). -/

inductive CompilerErrorType where
  | InvalidMacroIndex
  | NoFunctionIndex
  | NoClassPrototype
  | NoConstructorReturn
  | BadFunctionBody
  | BadReturnTypeForIterator
  | ExternalOracleFault
deriving DecidableEq

structure CompilerError where
  message : String
  node : Nat
  errorType : CompilerErrorType
deriving DecidableEq

/-- A `return` statement node: its optional operand and its ancestor
chain. -/
structure ReturnStatementNode where
  expression : Option Expr
  ancestors : List AncestorNode
deriving DecidableEq

/-- Source `compileReturnStatement` (src/compiler/function.ts, lines
73-82). -/
def compileReturnStatement (state : CompilerState) (node : ReturnStatementNode) : String :=
  match node.expression with
  | some exp =>
    let s1 := state.enterPrecedingStatementContext
    let returnStr := getReturnStrFromExpression s1 exp (getFirstMemberWithParameters node.ancestors)
    let (joined, _) := s1.exitPrecedingStatementContextAndJoin
    joined ++ state.indent ++ returnStr ++ "\n"
  | none => state.indent ++ "return nil;\n"

/-- A function body as dispatched by `compileFunctionBody`
(src/compiler/function.ts, lines 84-106): a statement block (carrying
the text `compileBlock` - a module outside the shown sources - produces
for it at the pushed indentation), a single-expression arrow body, or
an unrecognized node kind (kind name kept for the error message). -/
inductive FunctionBody where
  | block (compiled : String)
  | exprBody (e : Expr)
  | badBody (kindName : String) (node : Nat)
deriving DecidableEq

/-- Source `compileFunctionBody` (src/compiler/function.ts, lines
84-106): pushes one indent level, emits the parameter initializers,
then the block (via `compileBlock`) or the implicit return of an
expression body (via `getReturnStrFromExpression` under a fresh
preceding-statement context), pops, and ends at the caller's
indentation; any other body kind is a `BadFunctionBody` error. -/
def compileFunctionBody (state : CompilerState) (body : FunctionBody)
    (node : FunctionNode) (initializers : List String) :
    Except CompilerError String :=
  match body with
  | .block compiled =>
    let s1 := state.pushIndent
    let initStr := concatAll (initializers.map fun ini => s1.indent ++ ini ++ "\n")
    Except.ok ("\n" ++ initStr ++ compiled ++ state.indent)
  | .exprBody e =>
    let s1 := state.pushIndent
    let initStr := concatAll (initializers.map fun ini => s1.indent ++ ini ++ "\n")
    let s2 := s1.enterPrecedingStatementContext
    let returnStr := getReturnStrFromExpression s2 e (some node)
    let (joined, _) := s2.exitPrecedingStatementContextAndJoin
    Except.ok ("\n" ++ initStr ++ joined ++ s1.indent ++ returnStr ++ "\n" ++ state.indent)
  | .badBody kindName nodeId =>
    Except.error ⟨"Bad function body (" ++ kindName ++ ")", nodeId, .BadFunctionBody⟩

/-- JavaScript `paramNames[0] = "self"` (on an empty array this creates
the element). -/
def setIndexZeroSelf : List String → List String
  | [] => ["self"]
  | _ :: rest => "self" :: rest

/-- The `replacedThis` condition of `giveInitialSelfParameter`
(src/compiler/function.ts, lines 189-205): the first declared
parameter's identifier is literally `this`, a class ancestor exists,
and the parameter's type is the polymorphic `this` type or the class's
own type. -/
def giveInitialSelfReplacedThis (node : FunctionNode) : Bool :=
  match node.parameters with
  | p :: _ =>
    node.hasClassParent &&
      (match p.firstIdentText with
       | some t => t == "this" && (p.typeText == "this" || p.typeEqualsClassType)
       | none => false)
  | [] => false

/-- Source `giveInitialSelfParameter` (src/compiler/function.ts, lines
184-213): when the `replacedThis` condition holds, the first name is
replaced by `self` in place; otherwise, unless a parameter named `this`
is declared with type `void`, a synthetic `self` is prepended. -/
def giveInitialSelfParameter (node : FunctionNode) (paramNames : List String) :
    List String :=
  let replacedThis := giveInitialSelfReplacedThis node
  if replacedThis then
    setIndexZeroSelf paramNames
  else
    let thisParam := node.parameters.find? fun p => p.firstIdentText == some "this"
    match thisParam with
    | none => "self" :: paramNames
    | some p => if p.typeText != "void" then "self" :: paramNames else paramNames

/-- The parameter-name adjustment of `compileFunction`
(src/compiler/function.ts, lines 117-123): only method-like nodes
receive the self-parameter treatment. -/
def compileFunctionParamNames (node : FunctionNode) : List String :=
  if node.kind == .methodDecl || node.kind == .getAccessor || node.kind == .setAccessor then
    giveInitialSelfParameter node node.paramData
  else
    node.paramData

/-- The `isGenerator` flag of `compileFunction`
(src/compiler/function.ts, lines 145-158): accessors and constructors
are never generators, and arrow functions are excluded before
`node.isGenerator()` is consulted. -/
def compileFunctionIsGenerator (node : FunctionNode) : Bool :=
  (node.kind != .getAccessor && node.kind != .setAccessor && node.kind != .constructorDecl)
    && (node.kind != .arrowFunction && node.generatorFlag)

/-- The generator emission of `compileFunction`
(src/compiler/function.ts, lines 162-176), as a function of the state at
the `function(...)` header and of the compiled body (which was produced
at two extra indent levels): an iterator table whose `next` member is
`coroutine.wrap` applied to a closure running the body followed by
`repeat coroutine.yield(\x7b done = true \x7d) until false;`. -/
def generatorBodyWrap (state : CompilerState) (bodyStr : String) : String :=
  "\n"
    ++ state.pushIndent.indent ++ "return \x7b\n"
    ++ state.pushIndent.pushIndent.indent ++ "next = coroutine.wrap(function()"
    ++ bodyStr
    ++ "\trepeat coroutine.yield(\x7b done = true \x7d) until false;\n"
    ++ state.pushIndent.pushIndent.indent ++ "end);\n"
    ++ state.pushIndent.indent ++ "\x7d;\n"
    ++ state.indent

/-- The declaration-prefix, async-wrap and state bookkeeping of
`compileFunction` (src/compiler/function.ts, lines 109, 125-158),
producing the emitted text preceding `function(`, the closing
`backWrap`, and the updated state: the id frame is pushed; a named
function declaration is hoisted (when `shouldHoist` holds for its name
node) or declared with a `local` prefix; a named emission opens with
`<indent><declLead><name> = ` and closes with `;\n`; and an async
non-accessor non-constructor is wrapped in `TS.async(...)`, setting
`usesTSLibrary`. -/
def compileFunctionHeaderState (state : CompilerState) (node : FunctionNode)
    (name : String) : String × String × CompilerState :=
  let state := state.pushIdStack
  let (declLead, state) :=
    if node.kind == .functionDecl then
      if node.nameNodeHoist then ("", state.pushHoistStack name) else ("local ", state)
    else ("", state)
  let (result, backWrap) :=
    if name != "" then (state.indent ++ declLead ++ name ++ " = ", ";\n") else ("", "")
  if node.kind != .getAccessor && node.kind != .setAccessor
      && node.kind != .constructorDecl then
    if node.isAsync then
      (result ++ "TS.async(", ")" ++ backWrap, { state with usesTSLibrary := true })
    else (result, backWrap, state)
  else (result, backWrap, state)

/-- Source `compileFunction` (src/compiler/function.ts, lines 108-182):
pushes an id frame, adjusts parameter names for method-like nodes,
computes the declaration prefix and hoisting for named function
declarations, wraps async functions in `TS.async(...)`, emits either the
generator iterator template (after the `isIterableIterator` front-end
check, which reports a diagnostic when the declared return type cannot
satisfy the iterator capability) or the plain body, and closes with
`end`.  (`checkReturnsNonAny` and `checkReserved` are front-end
validations outside the shown sources and are not modelled.) -/
def compileFunction (state : CompilerState) (node : FunctionNode) (name : String)
    (body : FunctionBody) : Except CompilerError (String × CompilerState) :=
  let paramNames := compileFunctionParamNames node
  let initializers := node.initializerData
  let (result, backWrap, state) := compileFunctionHeaderState state node name
  let isGenerator := compileFunctionIsGenerator node
  let result := result ++ "function(" ++ joinComma paramNames ++ ")"
  if isGenerator then
    if !node.returnTypeIsIterableIterator then
      Except.error ⟨"Generator return type must satisfy IterableIterator", 0,
        .BadReturnTypeForIterator⟩
    else
      match compileFunctionBody state.pushIndent.pushIndent body node initializers with
      | .error e => .error e
      | .ok bodyStr =>
        Except.ok (result ++ generatorBodyWrap state bodyStr ++ "end" ++ backWrap,
          state.popIdStack)
  else
    match compileFunctionBody state body node initializers with
    | .error e => .error e
    | .ok bodyStr =>
      Except.ok (result ++ bodyStr ++ "end" ++ backWrap, state.popIdStack)

/-- A statement of a constructor body, as classified by
`compileConstructorDeclaration` and `containsSuperExpression`
(src/compiler/function.ts, lines 239-321): whether it is a `return`
statement, whether it is an expression statement whose expression is a
call on `super`, its node identity, and its compiled text
(`compileStatement` is a module outside the shown sources). -/
structure StatementNode where
  isReturnStatement : Bool
  containsSuperCall : Bool
  node : Nat
  compiled : String
deriving DecidableEq

/-- A constructor declaration node: the names/initializers/defaults
produced by `getParameterData` and the statements of its block body. -/
structure ConstructorNode where
  paramData : List String
  initializerData : List String
  defaultsData : List String
  bodyStatements : List StatementNode
deriving DecidableEq

/-- Source `compileConstructorDeclaration` (src/compiler/function.ts,
lines 252-321): the parameter list always starts with `self`
(followed by the declared parameters, or by `...` when the class has no
constructor declaration); defaults, an initial `super(...)` statement,
field initializers, extra initializers, then the remaining body
statements are emitted; a `return` statement among the body's statements
is a `NoConstructorReturn` error; the body ends with `return self;`. -/
def compileConstructorDeclaration (state : CompilerState) (className : String)
    (node : Option ConstructorNode) (extraInitializers : Option (List String))
    (hasSuper : Bool) : Except CompilerError String :=
  let paramNames := "self" :: (match node with | some n => n.paramData | none => ["..."])
  let paramStr := joinComma paramNames
  let s1 := state.pushIndent
  let header := state.indent ++ className ++ ".constructor = function(" ++ paramStr ++ ")\n"
  let footer := s1.indent ++ "return self;\n" ++ state.indent ++ "end;\n"
  match node with
  | some n =>
    match n.bodyStatements.find? (·.isReturnStatement) with
    | some ret =>
      Except.error ⟨"Cannot use return statement in constructor for " ++ className,
        ret.node, .NoConstructorReturn⟩
    | none =>
      let defaultsStr := concatAll (n.defaultsData.map fun d => s1.indent ++ d ++ "\n")
      let (superStr, rest) :=
        match n.bodyStatements with
        | s :: t => if s.containsSuperCall then (s.compiled, t) else ("", n.bodyStatements)
        | [] => ("", [])
      let initStr := concatAll (n.initializerData.map fun i => s1.indent ++ i ++ "\n")
      let extraStr := concatAll (extraInitializers.getD [])
      let restStr := concatAll (rest.map (·.compiled))
      Except.ok (header ++ defaultsStr ++ superStr ++ initStr ++ extraStr ++ restStr ++ footer)
  | none =>
    let superStr := if hasSuper then s1.indent ++ "super.constructor(self, ...);\n" else ""
    let extraStr := concatAll (extraInitializers.getD [])
    Except.ok (header ++ superStr ++ extraStr ++ footer)

/-! ## Member and element access (src/compiler/indexed.ts) -/

/-- Source `getReadableExpressionName` (src/compiler/indexed.ts, lines
68-74).  The regular expression of the source is the anchored
`_\d+` pattern: an underscore followed by one or more decimal digits and
nothing else. -/
def matchesSyntheticTemp (s : String) : Bool :=
  match s.data with
  | '_' :: rest => !rest.isEmpty && rest.all Char.isDigit
  | _ => false

/-- Source `getReadableExpressionName` (src/compiler/indexed.ts, lines
68-74): a string already of the synthetic-temporary form, or an
identifier not defined in an `export let` statement, is returned
unchanged; anything else is pushed to a fresh preceding-statement
temporary. -/
def getReadableExpressionName (state : CompilerState) (exp : Expr) (expStr : String) :
    String × CompilerState :=
  if matchesSyntheticTemp expStr || (exp.isIdentifier && !exp.identInExportLet) then
    (expStr, state)
  else
    state.pushPrecedingStatementToNextId expStr

/-- The result of `getPropertyAccessExpressionType`
(a module outside the shown sources): `None` for an ordinary member, or
the macro classification of the accessed member.  Only the `String` and
`Array` classifications admit the `length` member; the remaining macro
classifications are collapsed into one constructor, since the source
treats every non-`None` value other than the two `length` cases
identically. -/
inductive PropertyCallExpType where
  | noneType
  | stringType
  | arrayType
  | otherMacroType
deriving DecidableEq

/-- A property access node `exp.name`: its base expression, accessed
member name, macro classification oracle, and node identity for
diagnostics. -/
structure PropertyAccessNode where
  expression : Expr
  name : String
  propertyAccessType : PropertyCallExpType
  node : Nat
deriving DecidableEq

/-- Modelled: `safeLuaIndex` (src/utility.ts, not among the shown
sources) renders a member access; the claims do not depend on its
quoting of non-identifier member names. -/
def safeLuaIndex (base prop : String) : String :=
  base ++ "." ++ prop

/-- `members.find(m => m.name == k)?.value` for the enum member table
(`getMemberOrThrow(propertyStr).getValue()`; the outer `Option` is
`none` when the member does not exist, in which case the real call
throws). -/
def lookupEnumMember (members : List (String × Option EnumMemberValue)) (k : String) :
    Option (Option EnumMemberValue) :=
  (members.find? fun m => m.1 == k).map (·.2)

/-- Source `compilePropertyAccessExpression` (src/compiler/indexed.ts,
lines 76-146): a `length` access on a string/array macro type compiles
to the Lua length operator; any other macro member is an
`InvalidMacroIndex` error; `super.x` compiles to the getter-or-field
dispatch; a base whose type symbol's value declaration is function-like
is a `NoFunctionIndex` error; a const-enum member with a number or
string value folds to the literal; `prototype` on a class symbol is a
`NoClassPrototype` error; everything else is a plain field access.
(`checkApiAccess` and `checkNonAny` are front-end validations outside
the shown sources and are not modelled.) -/
def compilePropertyAccessExpression (state : CompilerState) (node : PropertyAccessNode) :
    Except CompilerError String :=
  let exp := node.expression
  let expStr := compileExpression state exp
  let propertyStr := node.name
  let t := node.propertyAccessType
  if (t == .stringType || t == .arrayType) && propertyStr == "length" then
    Except.ok ("(#" ++ expStr ++ ")")
  else if t != .noneType then
    Except.error ⟨"Invalid property access! Cannot index non-member \"" ++ propertyStr
      ++ "\" (a roblox-ts macro function)", node.node, .InvalidMacroIndex⟩
  else
    match exp with
    | .superExpr baseClassName _ =>
      let indexA := safeLuaIndex (baseClassName ++ "._getters") propertyStr
      let indexB := safeLuaIndex "self" propertyStr
      Except.ok ("(" ++ indexA ++ " and function(self) return " ++ indexA
        ++ "(self) end or function() return " ++ indexB ++ " end)(self)")
    | _ =>
      match exp.typeInfo.symbolValueDecl with
      | some .functionLike =>
        Except.error ⟨"Cannot index a function value!", node.node, .NoFunctionIndex⟩
      | some (.enumDecl isConstEnum members) =>
        if isConstEnum then
          match lookupEnumMember members propertyStr with
          | some (some (.numVal n)) => Except.ok (intDecimal n)
          | some (some (.strVal s)) => Except.ok ("\"" ++ s ++ "\"")
          | some none => Except.ok (expStr ++ "." ++ propertyStr)
          | none =>
            Except.error ⟨"Expected to find member named " ++ propertyStr, node.node,
              .ExternalOracleFault⟩
        else Except.ok (expStr ++ "." ++ propertyStr)
      | some .classDecl =>
        if propertyStr == "prototype" then
          Except.error ⟨"Class prototypes are not supported!", node.node, .NoClassPrototype⟩
        else Except.ok (expStr ++ "." ++ propertyStr)
      | some .otherDecl => Except.ok (expStr ++ "." ++ propertyStr)
      | none => Except.ok (expStr ++ "." ++ propertyStr)

/-- An element access node `exp[arg]`. -/
structure ElementAccessNode where
  expression : Expr
  argumentExpression : Expr
deriving DecidableEq

/-- The `addOne` computation of `compileElementAccessExpression`
(src/compiler/indexed.ts, lines 153-163): a numeric index into an
array-typed base, or into a call returning a tuple or an array, is
shifted by one. -/
def elementAccessAddOne (expNode argExp : Expr) : Bool :=
  if argExp.typeInfo.isNumberType then
    if expNode.typeInfo.isArrayType then true
    else if expNode.isCallExpression
        && (expNode.isTupleReturnTypeCall || expNode.callReturnTypeIsArray) then true
    else false
  else false

/-- The index-string computation of `compileElementAccessExpression`
(src/compiler/indexed.ts, lines 165-178): a numeric literal whose source
text has no `e` is folded at compile time (its numeric value, plus one
when `addOne`); every other index - including a numeric literal in
exponent form - is compiled as an expression with `" + 1"` appended when
`addOne`. -/
def elementAccessArgStr (state : CompilerState) (expNode argExp : Expr) : String :=
  let addOne := elementAccessAddOne expNode argExp
  match argExp with
  | .numericLiteral text value _ _ =>
    if containsChar text 'e' then
      compileExpression state argExp ++ (if addOne then " + 1" else "")
    else
      natDecimal (if addOne then value + 1 else value)
  | _ =>
    compileExpression state argExp ++ (if addOne then " + 1" else "")

/-- Source `compileElementAccessExpression` (src/compiler/indexed.ts,
lines 148-209): a tuple-returning call base compiles to the call's
multi-value form, parenthesized when the compiled index is literally
`1` and wrapped in `select(...)` otherwise; any other base compiles to
an indexed access, with the base parenthesized when it is an array
literal or a `new` expression of an `ArrayConstructor`-derived type. -/
def compileElementAccessExpression (state : CompilerState) (node : ElementAccessNode) :
    String :=
  let expNode := node.expression
  let argExp := node.argumentExpression
  let argExpStr := elementAccessArgStr state expNode argExp
  if expNode.isCallExpression && expNode.isTupleReturnTypeCall then
    let expStr := compileCallExpression state expNode true
    if argExpStr == "1" then "(" ++ expStr ++ ")"
    else "(select(" ++ argExpStr ++ ", " ++ expStr ++ "))"
  else
    let expStr := compileExpression state expNode
    let isArrayLiteral :=
      expNode.isArrayLiteralExpression ||
        (match expNode with
         | .newExpr inheritsArrayConstructor _ _ => inheritsArrayConstructor
         | _ => false)
    if isArrayLiteral then "(" ++ expStr ++ ")[" ++ argExpStr ++ "]"
    else expStr ++ "[" ++ argExpStr ++ "]"

/-! ## Parameter lowering (src/TSTransformer/util/transformParameters.ts)

The new transformer builds a Lua AST (`LuaAST`, a module outside the
shown sources) rather than strings; the node kinds the file creates are
embedded as inductives. -/

inductive LuaExpression where
  | identifier (name : String)
  | nilLiteral
  | binary (left : LuaExpression) (operator : String) (right : LuaExpression)
  | arrayExpr (members : List LuaExpression)
  | varArgsLiteral
  | otherLuaExpr (tag : String)

inductive LuaStatement where
  | ifStatement (condition : LuaExpression) (statements : List LuaStatement)
      (elseBody : List LuaStatement)
  | assignment (left : LuaExpression) (right : LuaExpression)
  | variableDeclaration (left : LuaExpression) (right : LuaExpression)

/-- The outcome of `transformExpression` on an initializer expression
(a module outside the shown sources): the resulting Lua expression and
the statements it prerequisite-pushed while being transformed.
`state.statement(...)` collects exactly those prereqs followed by any
statement prereq'd by the callback itself. -/
structure TsInitializer where
  transformed : LuaExpression
  prereqs : List LuaStatement

/-- A TypeScript parameter declaration as consumed by
`transformParameters`: its identifier name (the source asserts the
binding name is an identifier), its `dotDotDotToken`, and its optional
initializer. -/
structure TsParameter where
  name : String
  dotDotDot : Bool
  initializer : Option TsInitializer

/-- Source `transformParamInitializer`
(src/TSTransformer/util/transformParameters.ts, lines 8-25): an
`IfStatement` whose condition compares the parameter to `nil` with
`==`, whose then-branch holds the initializer's prerequisite statements
followed by the assignment of the transformed initializer to the
parameter, and whose else-branch is empty. -/
def transformParamInitializer (paramId : LuaExpression) (initializer : TsInitializer) :
    LuaStatement :=
  .ifStatement
    (.binary paramId "==" .nilLiteral)
    (initializer.prereqs ++ [.assignment paramId initializer.transformed])
    []

/-- The result record of `transformParameters`. -/
structure TransformParametersResult where
  parameters : List LuaExpression
  statements : List LuaStatement
  hasDotDotDot : Bool

/-- The statements one parameter contributes inside the loop of
`transformParameters`: the rest-parameter capture declaration when
`dotDotDotToken` is present, then the default-value conditional when an
initializer is present. -/
def paramStatementsOf (p : TsParameter) : List LuaStatement :=
  (if p.dotDotDot then
    [LuaStatement.variableDeclaration (.identifier p.name)
      (.arrayExpr [.varArgsLiteral])]
  else []) ++
  (match p.initializer with
   | some ini => [transformParamInitializer (.identifier p.name) ini]
   | none => [])

/-- One iteration of the `for` loop of `transformParameters`
(src/TSTransformer/util/transformParameters.ts, lines 32-54):
a rest parameter contributes a variadic-capture declaration instead of a
parameter slot; an initializer contributes the default conditional after
the parameter's own statements. -/
def transformParametersStep (acc : TransformParametersResult) (tsParam : TsParameter) :
    TransformParametersResult :=
  let paramId := LuaExpression.identifier tsParam.name
  let (paramStatements, parameters, hasDotDotDot) :=
    if tsParam.dotDotDot then
      ([LuaStatement.variableDeclaration paramId (.arrayExpr [.varArgsLiteral])],
        acc.parameters, true)
    else
      (([] : List LuaStatement), acc.parameters ++ [paramId], acc.hasDotDotDot)
  let paramStatements :=
    match tsParam.initializer with
    | some ini => paramStatements ++ [transformParamInitializer paramId ini]
    | none => paramStatements
  ⟨parameters, acc.statements ++ paramStatements, hasDotDotDot⟩

/-- Source `transformParameters`
(src/TSTransformer/util/transformParameters.ts, lines 27-61): folds over
the declared parameters in order, collecting non-rest parameters into
the Lua parameter list, per-parameter statements (rest capture and
default conditionals) into the statement list, and the rest flag.
(`transformIdentifierDefined` - a module outside the shown sources -
is modelled as producing the Lua identifier of the parameter's name.) -/
def transformParameters (tsParams : List TsParameter) : TransformParametersResult :=
  tsParams.foldl transformParametersStep ⟨[], [], false⟩

/-- The Lua parameter slots contributed by a parameter list, in order
(every non-rest parameter). -/
def parametersOf : List TsParameter → List LuaExpression
  | [] => []
  | p :: rest =>
    (if p.dotDotDot then [] else [LuaExpression.identifier p.name]) ++ parametersOf rest

/-- The concatenation, in declaration order, of each parameter's
contributed statements. -/
def statementsOfParams : List TsParameter → List LuaStatement
  | [] => []
  | p :: rest => paramStatementsOf p ++ statementsOfParams rest

/-- Whether some parameter carries a `dotDotDotToken`. -/
def anyDotDotDot : List TsParameter → Bool
  | [] => false
  | p :: rest => p.dotDotDot || anyDotDotDot rest

/-! ## Target-language coroutine semantics for the generator template

Modelled from the spec (§5, §9 "Coroutine-based generator emulation"):
the state machine realized by the emitted generator code
`next = coroutine.wrap(function() <body> repeat coroutine.yield(\x7b
done = true \x7d) until false; end)`.  The original body is abstracted
as the finite list of values it yields; one `next` call resumes the
coroutine for exactly one step.  While body yields remain, a call
yields the next body value; when the body's execution is exhausted, the
unconditional `repeat ... until false` loop is entered and every call
yields the `done` sentinel forever (the machine never returns to a body
state, so the body is never re-executed). -/

inductive GenYield (α : Type) where
  | value (a : α)
  | doneSentinel
deriving DecidableEq

inductive GenCoState (α : Type) where
  | bodyRunning (remaining : List α)
  | doneLoop
deriving DecidableEq

/-- One `next` call: resume the coroutine until its next yield. -/
def genStep {α : Type} : GenCoState α → GenYield α × GenCoState α
  | .bodyRunning (a :: rest) => (.value a, .bodyRunning rest)
  | .bodyRunning [] => (.doneSentinel, .doneLoop)
  | .doneLoop => (.doneSentinel, .doneLoop)

/-- The result of the `(k+1)`-st `next` call starting from state `σ`. -/
def genRun {α : Type} (σ : GenCoState α) : Nat → GenYield α × GenCoState α
  | 0 => genStep σ
  | k + 1 => genRun (genStep σ).2 k

/-! ## Helper lemmas -/

theorem jsSubstr_table_strip (t : String) :
    jsSubstr ("\x7b " ++ t ++ " \x7d") 2 (("\x7b " ++ t ++ " \x7d").length - 4) = t := by
  obtain ⟨cs⟩ := t
  show String.mk ((((['\x7b', ' '] ++ cs) ++ [' ', '\x7d']).drop 2).take
      ((((['\x7b', ' '] ++ cs) ++ [' ', '\x7d']).length - 4))) = String.mk cs
  have hd : ((['\x7b', ' '] ++ cs) ++ [' ', '\x7d']).drop 2 = cs ++ [' ', '\x7d'] := by
    simp
  have hl : (((['\x7b', ' '] ++ cs) ++ [' ', '\x7d']).length - 4) = cs.length := by
    simp
  rw [hd, hl, List.take_left]

theorem natDigitChar_isDigit (n : Nat) : (natDigitChar n).isDigit = true := by
  have hm : n % 10 < 10 := Nat.mod_lt _ (by omega)
  unfold natDigitChar
  interval_cases h : (n % 10) <;> decide

theorem natDecimalAux_digits (fuel : Nat) :
    ∀ n, n < fuel →
      natDecimalAux fuel n ≠ [] ∧ (natDecimalAux fuel n).all Char.isDigit = true := by
  induction fuel with
  | zero => intro n hn; omega
  | succ fuel ih =>
    intro n hn
    by_cases h10 : n < 10
    · constructor
      · simp [natDecimalAux, h10]
      · simp [natDecimalAux, h10, natDigitChar_isDigit]
    · have h1 : n / 10 < n := Nat.div_lt_self (by omega) (by omega)
      have hdiv : n / 10 < fuel := by omega
      obtain ⟨hne, hall⟩ := ih (n / 10) hdiv
      constructor
      · simp [natDecimalAux, h10]
      · simp [natDecimalAux, h10, List.all_append, natDigitChar_isDigit, hall]

theorem matchesSyntheticTemp_newId (k : Nat) :
    matchesSyntheticTemp ("_" ++ natDecimal k) = true := by
  obtain ⟨hne, hall⟩ := natDecimalAux_digits (k + 1) k (by omega)
  have hdata : ("_" ++ natDecimal k).data = '_' :: natDecimalAux (k + 1) k := rfl
  unfold matchesSyntheticTemp
  rw [hdata]
  cases h : natDecimalAux (k + 1) k with
  | nil => exact absurd h hne
  | cons c cs =>
    rw [h] at hall
    simp_all

theorem genRun_doneLoop {α : Type} (k : Nat) :
    genRun (GenCoState.doneLoop : GenCoState α) k = (.doneSentinel, .doneLoop) := by
  induction k with
  | zero => rfl
  | succ k ih => simpa [genRun, genStep] using ih

theorem genRun_done_after_body {α : Type} (vals : List α) :
    ∀ k, vals.length ≤ k →
      genRun (GenCoState.bodyRunning vals) k = (.doneSentinel, .doneLoop) := by
  induction vals with
  | nil =>
    intro k _
    cases k with
    | zero => rfl
    | succ k => simpa [genRun, genStep] using genRun_doneLoop k
  | cons a rest ih =>
    intro k hk
    cases k with
    | zero => simp at hk
    | succ k =>
      have : rest.length ≤ k := by simpa using hk
      simpa [genRun, genStep] using ih k this

theorem joinComma_self_cons (l : List String) :
    ∃ mid, joinComma ("self" :: l) = "self" ++ mid := by
  cases l with
  | nil => exact ⟨"", by decide⟩
  | cons q qs => exact ⟨", " ++ joinComma (q :: qs), rfl⟩

theorem compileExpression_state_irrel (e : Expr) (s s' : CompilerState) :
    compileExpression s e = compileExpression s' e := by
  induction e <;> simp [compileExpression, *]

theorem compileCallExpression_state_irrel (e : Expr) (s s' : CompilerState) (b : Bool) :
    compileCallExpression s e b = compileCallExpression s' e b := by
  cases e <;> simp [compileCallExpression, compileExpression_state_irrel _ s s']

theorem getReturnStrFromExpression_state_irrel (s s' : CompilerState) (e : Expr)
    (f : Option FunctionNode) :
    getReturnStrFromExpression s e f = getReturnStrFromExpression s' e f := by
  simp [getReturnStrFromExpression, compileExpression_state_irrel _ s s',
    compileCallExpression_state_irrel _ s s']

theorem compileFunctionBody_indent_only (s s' : CompilerState) (body : FunctionBody)
    (node : FunctionNode) (initializers : List String) (h : s.indent = s'.indent) :
    compileFunctionBody s body node initializers
      = compileFunctionBody s' body node initializers := by
  cases body with
  | block compiled =>
    simp [compileFunctionBody, CompilerState.pushIndent, h]
  | exprBody e =>
    simp only [compileFunctionBody, CompilerState.pushIndent,
      CompilerState.enterPrecedingStatementContext,
      CompilerState.exitPrecedingStatementContextAndJoin, h]
    rw [getReturnStrFromExpression_state_irrel
      { s with indent := s'.indent ++ "\t", contexts := [] :: s.contexts }
      { s' with indent := s'.indent ++ "\t", contexts := [] :: s'.contexts }]
  | badBody kindName nodeId => rfl

theorem generatorBodyWrap_indent_only (s s' : CompilerState) (bodyStr : String)
    (h : s.indent = s'.indent) :
    generatorBodyWrap s bodyStr = generatorBodyWrap s' bodyStr := by
  simp [generatorBodyWrap, CompilerState.pushIndent, h]

theorem transformParameters_foldl (tsParams : List TsParameter) :
    ∀ acc : TransformParametersResult,
      tsParams.foldl transformParametersStep acc
        = ⟨acc.parameters ++ parametersOf tsParams,
           acc.statements ++ statementsOfParams tsParams,
           acc.hasDotDotDot || anyDotDotDot tsParams⟩ := by
  induction tsParams with
  | nil => intro acc; simp [parametersOf, statementsOfParams, anyDotDotDot]
  | cons p rest ih =>
    intro acc
    rw [List.foldl_cons, ih]
    cases hdot : p.dotDotDot <;>
      cases hini : p.initializer <;>
        simp [transformParametersStep, parametersOf, statementsOfParams, anyDotDotDot,
          paramStatementsOf, hdot, hini]

theorem transformParameters_characterization (tsParams : List TsParameter) :
    transformParameters tsParams
      = ⟨parametersOf tsParams, statementsOfParams tsParams, anyDotDotDot tsParams⟩ := by
  simpa [transformParameters] using transformParameters_foldl tsParams ⟨[], [], false⟩

theorem mem_statementsOfParams (tsParams : List TsParameter) (p : TsParameter)
    (hp : p ∈ tsParams) (s : LuaStatement) (hs : s ∈ paramStatementsOf p) :
    s ∈ statementsOfParams tsParams := by
  induction tsParams with
  | nil => simp at hp
  | cons q rest ih =>
    rcases List.mem_cons.mp hp with hp | hp
    · subst hp
      simp only [statementsOfParams, List.mem_append]
      exact Or.inl hs
    · simp only [statementsOfParams, List.mem_append]
      exact Or.inr (ih hp)

/-! ## Claims -/

/-- Claim C1: a `return <expr>;` inside a function whose declared return
type is a fixed-arity tuple applies exactly three cases in priority
order: an array-literal operand has its elements emitted as a bare
multi-value return with no intermediate container; a call to a
tuple-returning function is forwarded as its multi-value result without
repacking; any other operand is lowered to a single container value and
returned through the generic `unpack(...)` spread. -/
theorem claim_C1 (state : CompilerState) (func : FunctionNode)
    (hf : func.tupleReturnType = true) (exp : Expr) :
    (∀ elems info, stripParens exp = .arrayLiteral elems info →
      getReturnStrFromExpression state exp (some func)
        = "return " ++ joinComma elems ++ ";")
    ∧ (∀ rArr plain unwrapped info,
        stripParens exp = .call true rArr plain unwrapped info →
      getReturnStrFromExpression state exp (some func)
        = "return " ++ unwrapped ++ ";")
    ∧ ((stripParens exp).isArrayLiteralExpression = false →
       (stripParens exp).isTupleReturnTypeCall = false →
      getReturnStrFromExpression state exp (some func)
        = "return unpack(" ++ compileExpression state (stripParens exp) ++ ");") := by
  refine ⟨?_, ?_, ?_⟩
  · intro elems info h
    simp only [getReturnStrFromExpression, funcIsTupleReturn, hf, if_true, h,
      Expr.isArrayLiteralExpression, compileExpression]
    rw [jsSubstr_table_strip]
  · intro rArr plain unwrapped info h
    simp [getReturnStrFromExpression, funcIsTupleReturn, hf, h,
      Expr.isArrayLiteralExpression, Expr.isCallExpression, Expr.isTupleReturnTypeCall,
      compileCallExpression]
  · intro ha hc
    simp [getReturnStrFromExpression, funcIsTupleReturn, hf, ha, hc]

/-- Witness for C1: a function declared to return a tuple, returning
the literal pair `[a, b]` (parenthesized), lowers to the bare
multi-value return `return a, b;`; forwarding a tuple-returning call
lowers to `return t();`; returning a plain identifier lowers to
`return unpack(x);`. -/
theorem claim_C1_witness :
    getReturnStrFromExpression ⟨"", 0, [], [], [], false⟩
        (.paren (.arrayLiteral ["a", "b"] ⟨false, false, none⟩))
        (some ⟨.functionDecl, true, false, false, false, [], false, [], [], false⟩)
      = "return a, b;"
  ∧ getReturnStrFromExpression ⟨"", 0, [], [], [], false⟩
        (.call true false "t()" "t()" ⟨false, false, none⟩)
        (some ⟨.functionDecl, true, false, false, false, [], false, [], [], false⟩)
      = "return t();"
  ∧ getReturnStrFromExpression ⟨"", 0, [], [], [], false⟩
        (.ident "x" [] ⟨false, false, none⟩)
        (some ⟨.functionDecl, true, false, false, false, [], false, [], [], false⟩)
      = "return unpack(x);" := by
  refine ⟨?_, ?_, ?_⟩
  · have h := (claim_C1 ⟨"", 0, [], [], [], false⟩
      ⟨.functionDecl, true, false, false, false, [], false, [], [], false⟩ rfl
      (.paren (.arrayLiteral ["a", "b"] ⟨false, false, none⟩))).1 ["a", "b"]
      ⟨false, false, none⟩ rfl
    exact h.trans (by decide)
  · have h := (claim_C1 ⟨"", 0, [], [], [], false⟩
      ⟨.functionDecl, true, false, false, false, [], false, [], [], false⟩ rfl
      (.call true false "t()" "t()" ⟨false, false, none⟩)).2.1 false "t()" "t()"
      ⟨false, false, none⟩ rfl
    exact h
  · have h := (claim_C1 ⟨"", 0, [], [], [], false⟩
      ⟨.functionDecl, true, false, false, false, [], false, [], [], false⟩ rfl
      (.ident "x" [] ⟨false, false, none⟩)).2.2 rfl rfl
    exact h.trans (by decide)

/-- Claim C6: a `return` statement with no expression lowers to the
target statement returning the target's "no value" literal,
`return nil;`. -/
theorem claim_C6 (state : CompilerState) (node : ReturnStatementNode)
    (h : node.expression = none) :
    compileReturnStatement state node = state.indent ++ "return nil;\n" := by
  simp [compileReturnStatement, h]

/-- Witness for C6 at a concrete indentation. -/
theorem claim_C6_witness :
    compileReturnStatement ⟨"\t", 0, [], [], [], false⟩ ⟨none, []⟩ = "\treturn nil;\n" :=
  (claim_C6 ⟨"\t", 0, [], [], [], false⟩ ⟨none, []⟩ rfl).trans (by decide)

/-- Claim C8: `getReadableExpressionName` is idempotent and respects
the pure-inlineable rule: a string already matching the
synthetic-temporary pattern `_\d+`, or an identifier not defined in an
`export let` statement, is returned unchanged with no extraction; any
other expression - including an identifier defined in an `export let`
statement - is extracted into a fresh preceding-statement temporary
whose name (which itself matches the synthetic pattern) is returned;
and re-entering the sequencer with the returned name produces no
further extraction. -/
theorem claim_C8 (state : CompilerState) (exp : Expr) (expStr : String) :
    (matchesSyntheticTemp expStr = true →
      getReadableExpressionName state exp expStr = (expStr, state))
    ∧ (exp.isIdentifier = true → exp.identInExportLet = false →
      getReadableExpressionName state exp expStr = (expStr, state))
    ∧ (matchesSyntheticTemp expStr = false →
       (exp.isIdentifier = false ∨ exp.identInExportLet = true) →
      (getReadableExpressionName state exp expStr).1 = "_" ++ natDecimal state.idCounter
      ∧ matchesSyntheticTemp (getReadableExpressionName state exp expStr).1 = true
      ∧ (∀ ctx rest, state.contexts = ctx :: rest →
          (getReadableExpressionName state exp expStr).2.contexts
            = (ctx ++ [state.indent ++ "local " ++ ("_" ++ natDecimal state.idCounter)
                ++ " = " ++ expStr ++ ";\n"]) :: rest))
    ∧ (∀ state2 : CompilerState,
      getReadableExpressionName state2 exp ((getReadableExpressionName state exp expStr).1)
        = ((getReadableExpressionName state exp expStr).1, state2)) := by
  have hextr : matchesSyntheticTemp expStr = false →
      (exp.isIdentifier = false ∨ exp.identInExportLet = true) →
      getReadableExpressionName state exp expStr
        = state.pushPrecedingStatementToNextId expStr := by
    intro hm hid
    rcases hid with hid | hid <;>
      simp [getReadableExpressionName, hm, hid]
  refine ⟨?_, ?_, ?_, ?_⟩
  · intro hm
    simp [getReadableExpressionName, hm]
  · intro hid hlet
    simp [getReadableExpressionName, hid, hlet]
  · intro hm hid
    rw [hextr hm hid]
    refine ⟨rfl, matchesSyntheticTemp_newId _, ?_⟩
    intro ctx rest hc
    simp [CompilerState.pushPrecedingStatementToNextId, CompilerState.getNewId,
      CompilerState.pushPrecedingStatements, hc]
  · intro state2
    by_cases hm : matchesSyntheticTemp expStr = true
    · simp [getReadableExpressionName, hm]
    · by_cases hid : exp.isIdentifier && !exp.identInExportLet
      · simp only [Bool.and_eq_true, Bool.not_eq_true'] at hid
        simp [getReadableExpressionName, hid.1, hid.2]
      · have hm' : matchesSyntheticTemp expStr = false := by
          simpa using hm
        have hid' : exp.isIdentifier = false ∨ exp.identInExportLet = true := by
          cases h1 : exp.isIdentifier
          · exact Or.inl rfl
          · cases h2 : exp.identInExportLet
            · exact absurd (show (exp.isIdentifier && !exp.identInExportLet) = true by
                simp [h1, h2]) hid
            · exact Or.inr rfl
        rw [hextr hm' hid']
        simp [getReadableExpressionName, CompilerState.pushPrecedingStatementToNextId,
          CompilerState.getNewId, matchesSyntheticTemp_newId]

/-- Witness for C8: a synthetic temporary `_0` and a plain identifier
pass through unchanged; a call-shaped expression is extracted to the
fresh temporary `_4`, whose name matches the synthetic pattern and whose
extraction statement lands in the open preceding-statement buffer;
re-entry with the extracted name changes nothing. -/
theorem claim_C8_witness :
    getReadableExpressionName ⟨"", 4, [[]], [], [], false⟩
        (.otherExpr "f()" ⟨false, false, none⟩) "_0"
      = ("_0", ⟨"", 4, [[]], [], [], false⟩)
    ∧ getReadableExpressionName ⟨"", 4, [[]], [], [], false⟩
        (.ident "x" [] ⟨false, false, none⟩) "x"
      = ("x", ⟨"", 4, [[]], [], [], false⟩)
    ∧ (getReadableExpressionName ⟨"", 4, [[]], [], [], false⟩
        (.otherExpr "f()" ⟨false, false, none⟩) "f()").1 = "_4"
    ∧ (getReadableExpressionName ⟨"", 4, [[]], [], [], false⟩
        (.otherExpr "f()" ⟨false, false, none⟩) "f()").2.contexts
      = [["local _4 = f();\n"]]
    ∧ getReadableExpressionName ⟨"", 9, [[]], [], [], false⟩
        (.otherExpr "f()" ⟨false, false, none⟩)
        ((getReadableExpressionName ⟨"", 4, [[]], [], [], false⟩
          (.otherExpr "f()" ⟨false, false, none⟩) "f()").1)
      = ((getReadableExpressionName ⟨"", 4, [[]], [], [], false⟩
          (.otherExpr "f()" ⟨false, false, none⟩) "f()").1,
         ⟨"", 9, [[]], [], [], false⟩) := by
  refine ⟨?_, ?_, ?_, ?_, ?_⟩
  · exact (claim_C8 ⟨"", 4, [[]], [], [], false⟩
      (.otherExpr "f()" ⟨false, false, none⟩) "_0").1 (by decide)
  · exact (claim_C8 ⟨"", 4, [[]], [], [], false⟩
      (.ident "x" [] ⟨false, false, none⟩) "x").2.1 rfl rfl
  · exact ((claim_C8 ⟨"", 4, [[]], [], [], false⟩
      (.otherExpr "f()" ⟨false, false, none⟩) "f()").2.2.1 (by decide)
      (Or.inl rfl)).1.trans (by decide)
  · exact (((claim_C8 ⟨"", 4, [[]], [], [], false⟩
      (.otherExpr "f()" ⟨false, false, none⟩) "f()").2.2.1 (by decide)
      (Or.inl rfl)).2.2 [] [] rfl).trans (by decide)
  · exact (claim_C8 ⟨"", 4, [[]], [], [], false⟩
      (.otherExpr "f()" ⟨false, false, none⟩) "f()").2.2.2 ⟨"", 9, [[]], [], [], false⟩

/-- Claim C7: a property access whose base's type symbol resolves to a
`const enum` declaration and whose member is a constant member with a
numeric or string value folds at compile time to the literal numeric
value or quoted string value; no runtime field lookup is emitted. -/
theorem claim_C7 (state : CompilerState) (node : PropertyAccessNode)
    (members : List (String × Option EnumMemberValue))
    (hmac : node.propertyAccessType = .noneType)
    (hsup : node.expression.isSuperExpression = false)
    (hdecl : node.expression.typeInfo.symbolValueDecl = some (.enumDecl true members)) :
    (∀ n : Int, lookupEnumMember members node.name = some (some (.numVal n)) →
      compilePropertyAccessExpression state node = Except.ok (intDecimal n))
    ∧ (∀ s : String, lookupEnumMember members node.name = some (some (.strVal s)) →
      compilePropertyAccessExpression state node = Except.ok ("\"" ++ s ++ "\"")) := by
  constructor
  · intro n hv
    cases hexp : node.expression <;>
      simp_all [compilePropertyAccessExpression, Expr.isSuperExpression, Expr.typeInfo, hmac]
  · intro s hv
    cases hexp : node.expression <;>
      simp_all [compilePropertyAccessExpression, Expr.isSuperExpression, Expr.typeInfo, hmac]

/-- Witness for C7: a const-enum base with a numeric member `A = 5`
folds to `5`, and a string member `B = "hi"` folds to `"hi"` (quoted),
with no mention of the base in the output. -/
theorem claim_C7_witness :
    compilePropertyAccessExpression ⟨"", 0, [], [], [], false⟩
        ⟨.ident "E" [] ⟨false, false,
          some (.enumDecl true [("A", some (.numVal 5)), ("B", some (.strVal "hi"))])⟩,
         "A", .noneType, 3⟩
      = Except.ok "5"
    ∧ compilePropertyAccessExpression ⟨"", 0, [], [], [], false⟩
        ⟨.ident "E" [] ⟨false, false,
          some (.enumDecl true [("A", some (.numVal 5)), ("B", some (.strVal "hi"))])⟩,
         "B", .noneType, 3⟩
      = Except.ok "\"hi\"" := by
  constructor
  · exact ((claim_C7 ⟨"", 0, [], [], [], false⟩
      ⟨.ident "E" [] ⟨false, false,
        some (.enumDecl true [("A", some (.numVal 5)), ("B", some (.strVal "hi"))])⟩,
       "A", .noneType, 3⟩
      [("A", some (.numVal 5)), ("B", some (.strVal "hi"))] rfl rfl rfl).1 5
      (by decide)).trans rfl
  · exact ((claim_C7 ⟨"", 0, [], [], [], false⟩
      ⟨.ident "E" [] ⟨false, false,
        some (.enumDecl true [("A", some (.numVal 5)), ("B", some (.strVal "hi"))])⟩,
       "B", .noneType, 3⟩
      [("A", some (.numVal 5)), ("B", some (.strVal "hi"))] rfl rfl rfl).2 "hi"
      (by decide)).trans rfl

/-- Claim C5: each of the four conditions raises a `CompilerError`
carrying a stable error-kind tag and the offending source node, aborting
the lowering of that declaration: a macro-classified member access other
than `length` on a string/array macro type (`InvalidMacroIndex`); a
member access on a value whose type symbol resolves to a function-like
declaration (`NoFunctionIndex`); accessing `prototype` on a class symbol
(`NoClassPrototype`); and a `return` statement in a constructor body
(`NoConstructorReturn`). -/
theorem claim_C5 :
    (∀ (state : CompilerState) (node : PropertyAccessNode),
      node.propertyAccessType ≠ .noneType →
      ((node.propertyAccessType == .stringType || node.propertyAccessType == .arrayType)
        && node.name == "length") = false →
      compilePropertyAccessExpression state node
        = Except.error ⟨"Invalid property access! Cannot index non-member \"" ++ node.name
            ++ "\" (a roblox-ts macro function)", node.node, .InvalidMacroIndex⟩)
    ∧ (∀ (state : CompilerState) (node : PropertyAccessNode),
      node.propertyAccessType = .noneType →
      node.expression.isSuperExpression = false →
      node.expression.typeInfo.symbolValueDecl = some .functionLike →
      compilePropertyAccessExpression state node
        = Except.error ⟨"Cannot index a function value!", node.node, .NoFunctionIndex⟩)
    ∧ (∀ (state : CompilerState) (node : PropertyAccessNode),
      node.propertyAccessType = .noneType →
      node.expression.isSuperExpression = false →
      node.expression.typeInfo.symbolValueDecl = some .classDecl →
      node.name = "prototype" →
      compilePropertyAccessExpression state node
        = Except.error ⟨"Class prototypes are not supported!", node.node, .NoClassPrototype⟩)
    ∧ (∀ (state : CompilerState) (className : String) (n : ConstructorNode)
        (extra : Option (List String)) (hasSuper : Bool) (ret : StatementNode),
      n.bodyStatements.find? (·.isReturnStatement) = some ret →
      compileConstructorDeclaration state className (some n) extra hasSuper
        = Except.error ⟨"Cannot use return statement in constructor for " ++ className,
            ret.node, .NoConstructorReturn⟩) := by
  refine ⟨?_, ?_, ?_, ?_⟩
  · intro state node hne hlen
    have hb : (node.propertyAccessType != PropertyCallExpType.noneType) = true := by
      simpa using hne
    simp [compilePropertyAccessExpression, hlen, hb]
  · intro state node hmac hsup hdecl
    cases hexp : node.expression <;>
      simp_all [compilePropertyAccessExpression, Expr.isSuperExpression, Expr.typeInfo, hmac]
  · intro state node hmac hsup hdecl hname
    cases hexp : node.expression <;>
      simp_all [compilePropertyAccessExpression, Expr.isSuperExpression, Expr.typeInfo, hmac]
  · intro state className n extra hasSuper ret hret
    simp [compileConstructorDeclaration, hret]

/-- Witness for C5: concrete nodes hitting each of the four
diagnostics, with the expected tag and offending node identity. -/
theorem claim_C5_witness :
    compilePropertyAccessExpression ⟨"", 0, [], [], [], false⟩
        ⟨.ident "s" [] ⟨false, false, none⟩, "size", .stringType, 11⟩
      = Except.error ⟨"Invalid property access! Cannot index non-member \"size\" (a roblox-ts macro function)",
          11, .InvalidMacroIndex⟩
    ∧ compilePropertyAccessExpression ⟨"", 0, [], [], [], false⟩
        ⟨.ident "f" [] ⟨false, false, some .functionLike⟩, "call", .noneType, 12⟩
      = Except.error ⟨"Cannot index a function value!", 12, .NoFunctionIndex⟩
    ∧ compilePropertyAccessExpression ⟨"", 0, [], [], [], false⟩
        ⟨.ident "C" [] ⟨false, false, some .classDecl⟩, "prototype", .noneType, 13⟩
      = Except.error ⟨"Class prototypes are not supported!", 13, .NoClassPrototype⟩
    ∧ compileConstructorDeclaration ⟨"", 0, [], [], [], false⟩ "Foo"
        (some ⟨["a"], [], [], [⟨true, false, 14, "return 1;"⟩]⟩) none false
      = Except.error ⟨"Cannot use return statement in constructor for Foo", 14,
          .NoConstructorReturn⟩ := by
  refine ⟨?_, ?_, ?_, ?_⟩
  · exact (claim_C5.1 ⟨"", 0, [], [], [], false⟩
      ⟨.ident "s" [] ⟨false, false, none⟩, "size", .stringType, 11⟩
      (by decide) (by decide)).trans rfl
  · exact claim_C5.2.1 ⟨"", 0, [], [], [], false⟩
      ⟨.ident "f" [] ⟨false, false, some .functionLike⟩, "call", .noneType, 12⟩
      rfl rfl rfl
  · exact claim_C5.2.2.1 ⟨"", 0, [], [], [], false⟩
      ⟨.ident "C" [] ⟨false, false, some .classDecl⟩, "prototype", .noneType, 13⟩
      rfl rfl rfl rfl
  · exact (claim_C5.2.2.2 ⟨"", 0, [], [], [], false⟩ "Foo"
      ⟨["a"], [], [], [⟨true, false, 14, "return 1;"⟩]⟩ none false
      ⟨true, false, 14, "return 1;"⟩ (by decide)).trans rfl

/-- Counterexample to C2 as stated: the claim asserts the one-based
offset is "constant-folded at compile time when the index is a numeric
literal", but for the numeric literal `1e1` (value 10) indexing an
array-typed base, the code emits the runtime form `arr[1e1 + 1]`, not
the folded index `11`. -/
theorem claim_C2_counterexample :
    compileElementAccessExpression ⟨"", 0, [], [], [], false⟩
        ⟨.ident "arr" [] ⟨true, false, none⟩,
         .numericLiteral "1e1" 10 "1e1" ⟨false, true, none⟩⟩
      = "arr[1e1 + 1]"
    ∧ compileElementAccessExpression ⟨"", 0, [], [], [], false⟩
        ⟨.ident "arr" [] ⟨true, false, none⟩,
         .numericLiteral "1e1" 10 "1e1" ⟨false, true, none⟩⟩
      ≠ "arr[11]" := by
  constructor
  · decide
  · decide

/-- Claim C2 (amended): when the base's static type is an array and the
index's static type is numeric, the emitted index is the source index
plus one - constant-folded when the index is a numeric literal whose
source text does not contain the exponent character `e` (so `arr[0]`
emits index `1`), and otherwise emitted as a runtime ` + 1` (so
`arr[i]` emits `i + 1`); when the base is a call whose declared return
is a fixed-arity tuple, the access lowers to a positional selection
over the call's multiple return values, the first value being a direct
parenthesized call result when the compiled index is literally `1`. -/
theorem claim_C2 (state : CompilerState) (base arg : Expr) :
    (∀ text v ct info, arg = .numericLiteral text v ct info →
      containsChar text 'e' = false →
      base.typeInfo.isArrayType = true → info.isNumberType = true →
      elementAccessArgStr state base arg = natDecimal (v + 1))
    ∧ (arg.numericLiteralData = none →
      base.typeInfo.isArrayType = true → arg.typeInfo.isNumberType = true →
      elementAccessArgStr state base arg
        = compileExpression state arg ++ " + 1")
    ∧ (∀ nm defs info, base = .ident nm defs info →
      compileElementAccessExpression state ⟨base, arg⟩
        = nm ++ "[" ++ elementAccessArgStr state base arg ++ "]")
    ∧ (∀ rArr plain unwrapped info, base = .call true rArr plain unwrapped info →
      compileElementAccessExpression state ⟨base, arg⟩
        = (if elementAccessArgStr state base arg = "1"
           then "(" ++ unwrapped ++ ")"
           else "(select(" ++ elementAccessArgStr state base arg ++ ", " ++ unwrapped
             ++ "))")) := by
  refine ⟨?_, ?_, ?_, ?_⟩
  · intro text v ct info harg he harr hnum
    subst harg
    simp [elementAccessArgStr, elementAccessAddOne, Expr.typeInfo, he, hnum, harr]
  · intro hlit harr hnum
    have haddone : elementAccessAddOne base arg = true := by
      simp [elementAccessAddOne, hnum, harr]
    cases arg <;> simp_all [elementAccessArgStr, Expr.numericLiteralData]
  · intro nm defs info hbase
    subst hbase
    simp [compileElementAccessExpression, Expr.isCallExpression,
      Expr.isTupleReturnTypeCall, Expr.isArrayLiteralExpression, compileExpression]
  · intro rArr plain unwrapped info hbase
    subst hbase
    by_cases h1 : elementAccessArgStr state (.call true rArr plain unwrapped info) arg = "1"
    · simp [compileElementAccessExpression, Expr.isCallExpression,
        Expr.isTupleReturnTypeCall, compileCallExpression, h1]
    · simp [compileElementAccessExpression, Expr.isCallExpression,
        Expr.isTupleReturnTypeCall, compileCallExpression, h1]

/-- Witness for C2 (amended): `arr[0]` emits the folded index `1` (so
the access is `arr[1]`), `arr[i]` emits `arr[i + 1]`, a tuple-returning
call indexed at `0` lowers to the direct parenthesized first value
`(t())`, and indexed at `2` lowers to the positional selection
`(select(3, t()))`. -/
theorem claim_C2_witness :
    elementAccessArgStr ⟨"", 0, [], [], [], false⟩ (.ident "arr" [] ⟨true, false, none⟩)
        (.numericLiteral "0" 0 "0" ⟨false, true, none⟩) = "1"
    ∧ elementAccessArgStr ⟨"", 0, [], [], [], false⟩ (.ident "arr" [] ⟨true, false, none⟩)
        (.ident "i" [] ⟨false, true, none⟩) = "i + 1"
    ∧ compileElementAccessExpression ⟨"", 0, [], [], [], false⟩
        ⟨.ident "arr" [] ⟨true, false, none⟩,
         .numericLiteral "0" 0 "0" ⟨false, true, none⟩⟩ = "arr[1]"
    ∧ compileElementAccessExpression ⟨"", 0, [], [], [], false⟩
        ⟨.call true false "t()" "t()" ⟨false, false, none⟩,
         .numericLiteral "0" 0 "0" ⟨false, true, none⟩⟩ = "(t())"
    ∧ compileElementAccessExpression ⟨"", 0, [], [], [], false⟩
        ⟨.call true false "t()" "t()" ⟨false, false, none⟩,
         .numericLiteral "2" 2 "2" ⟨false, true, none⟩⟩ = "(select(3, t()))" := by
  refine ⟨?_, ?_, ?_, ?_, ?_⟩
  · exact ((claim_C2 ⟨"", 0, [], [], [], false⟩ (.ident "arr" [] ⟨true, false, none⟩)
      (.numericLiteral "0" 0 "0" ⟨false, true, none⟩)).1 "0" 0 "0" ⟨false, true, none⟩
      rfl (by decide) rfl rfl).trans (by decide)
  · exact ((claim_C2 ⟨"", 0, [], [], [], false⟩ (.ident "arr" [] ⟨true, false, none⟩)
      (.ident "i" [] ⟨false, true, none⟩)).2.1 rfl rfl rfl).trans (by decide)
  · exact ((claim_C2 ⟨"", 0, [], [], [], false⟩ (.ident "arr" [] ⟨true, false, none⟩)
      (.numericLiteral "0" 0 "0" ⟨false, true, none⟩)).2.2.1 "arr" [] ⟨true, false, none⟩
      rfl).trans (by decide)
  · exact ((claim_C2 ⟨"", 0, [], [], [], false⟩
      (.call true false "t()" "t()" ⟨false, false, none⟩)
      (.numericLiteral "0" 0 "0" ⟨false, true, none⟩)).2.2.2 false "t()" "t()"
      ⟨false, false, none⟩ rfl).trans (by decide)
  · exact ((claim_C2 ⟨"", 0, [], [], [], false⟩
      (.call true false "t()" "t()" ⟨false, false, none⟩)
      (.numericLiteral "2" 2 "2" ⟨false, true, none⟩)).2.2.2 false "t()" "t()"
      ⟨false, false, none⟩ rfl).trans (by decide)

/-- Claim C10: an element access whose index is a numeric literal whose
source text contains the character `e` is never constant-folded: the
literal is compiled as an expression, and when the base is an array
type (with a numeric index) the one-based offset is appended as a
runtime ` + 1`. -/
theorem claim_C10 (state : CompilerState) (base : Expr) (text : String) (v : Nat)
    (ct : String) (info : TypeInfo) (he : containsChar text 'e' = true) :
    elementAccessArgStr state base (.numericLiteral text v ct info)
      = ct ++ (if elementAccessAddOne base (.numericLiteral text v ct info)
               then " + 1" else "")
    ∧ (base.typeInfo.isArrayType = true → info.isNumberType = true →
      elementAccessArgStr state base (.numericLiteral text v ct info) = ct ++ " + 1") := by
  constructor
  · simp [elementAccessArgStr, he, compileExpression]
  · intro harr hnum
    have haddone : elementAccessAddOne base (.numericLiteral text v ct info) = true := by
      simp [elementAccessAddOne, Expr.typeInfo, hnum, harr]
    simp [elementAccessArgStr, he, haddone, compileExpression]

/-- Claim C3: a method-like declaration whose first declared parameter
is syntactically the receiver `this` with a type matching the enclosing
class has that parameter renamed in place to `self` (no duplicate
added); otherwise a synthetic `self` is prepended, unless a receiver
parameter is explicitly declared with type `void`; and every
constructor's emitted parameter list starts with `self`
unconditionally. -/
theorem claim_C3 :
    (∀ (node : FunctionNode) (p : ParamInfo) (ps : List ParamInfo) (n : String)
        (ns : List String),
      node.parameters = p :: ps → node.hasClassParent = true →
      p.firstIdentText = some "this" →
      (p.typeText = "this" ∨ p.typeEqualsClassType = true) →
      giveInitialSelfParameter node (n :: ns) = "self" :: ns
      ∧ (giveInitialSelfParameter node (n :: ns)).length = (n :: ns).length)
    ∧ (∀ (node : FunctionNode) (paramNames : List String),
      giveInitialSelfReplacedThis node = false →
      ((node.parameters.find? fun p => p.firstIdentText == some "this") = none →
        giveInitialSelfParameter node paramNames = "self" :: paramNames)
      ∧ (∀ p, (node.parameters.find? fun p => p.firstIdentText == some "this") = some p →
          p.typeText ≠ "void" →
          giveInitialSelfParameter node paramNames = "self" :: paramNames)
      ∧ (∀ p, (node.parameters.find? fun p => p.firstIdentText == some "this") = some p →
          p.typeText = "void" →
          giveInitialSelfParameter node paramNames = paramNames))
    ∧ (∀ (state : CompilerState) (className : String) (cnode : Option ConstructorNode)
        (extra : Option (List String)) (hasSuper : Bool) (out : String),
      compileConstructorDeclaration state className cnode extra hasSuper = Except.ok out →
      ∃ tail, out = state.indent ++ className ++ ".constructor = function(" ++ "self"
        ++ tail) := by
  refine ⟨?_, ?_, ?_⟩
  · intro node p ps n ns hps hcls hident htype
    have hrep : giveInitialSelfReplacedThis node = true := by
      rcases htype with h | h <;>
        simp [giveInitialSelfReplacedThis, hps, hcls, hident, h]
    constructor
    · simp [giveInitialSelfParameter, hrep, setIndexZeroSelf]
    · simp [giveInitialSelfParameter, hrep, setIndexZeroSelf]
  · intro node paramNames hrep
    refine ⟨?_, ?_, ?_⟩
    · intro hfind
      simp [giveInitialSelfParameter, hrep, hfind]
    · intro p hfind hvoid
      have : (p.typeText != "void") = true := by simpa using hvoid
      simp [giveInitialSelfParameter, hrep, hfind, this]
    · intro p hfind hvoid
      simp [giveInitialSelfParameter, hrep, hfind, hvoid]
  · intro state className cnode extra hasSuper out hok
    cases cnode with
    | none =>
      simp only [compileConstructorDeclaration, Except.ok.injEq] at hok
      subst hok
      obtain ⟨mid, hmid⟩ := joinComma_self_cons ["..."]
      simp only [String.append_assoc]
      rw [hmid]
      simp only [String.append_assoc]
      exact ⟨_, rfl⟩
    | some n =>
      simp only [compileConstructorDeclaration] at hok
      cases hfind : n.bodyStatements.find? (·.isReturnStatement) with
      | some ret => simp only [hfind] at hok; exact absurd hok (by simp)
      | none =>
        simp only [hfind, Except.ok.injEq] at hok
        subst hok
        obtain ⟨mid, hmid⟩ := joinComma_self_cons n.paramData
        simp only [String.append_assoc]
        rw [hmid]
        simp only [String.append_assoc]
        exact ⟨_, rfl⟩

/-- Witness for C3: a method whose first parameter is the receiver
(`this` typed as the class) is renamed in place to `self` with no
duplicate; a method whose first parameter is an ordinary one gets
`self` prepended; a method with an explicit `this: void` parameter gets
nothing; and a concrete constructor's emitted header opens its
parameter list with `self`. -/
theorem claim_C3_witness :
    giveInitialSelfParameter
        ⟨.methodDecl, false, false, false, false, [⟨some "this", "this", false⟩,
          ⟨some "x", "number", false⟩], true, [], [], false⟩ ["this", "x"]
      = ["self", "x"]
    ∧ giveInitialSelfParameter
        ⟨.methodDecl, false, false, false, false, [⟨some "x", "number", false⟩], true,
          [], [], false⟩ ["x"]
      = ["self", "x"]
    ∧ giveInitialSelfParameter
        ⟨.methodDecl, false, false, false, false, [⟨some "this", "void", false⟩,
          ⟨some "x", "number", false⟩], true, [], [], false⟩ ["this", "x"]
      = ["this", "x"]
    ∧ (∃ tail, "Foo.constructor = function(self, a)\n\ts1;\n\treturn self;\nend;\n"
        = "" ++ "Foo" ++ ".constructor = function(" ++ "self" ++ tail) := by
  refine ⟨?_, ?_, ?_, ?_⟩
  · exact ((claim_C3.1
      ⟨.methodDecl, false, false, false, false, [⟨some "this", "this", false⟩,
        ⟨some "x", "number", false⟩], true, [], [], false⟩
      ⟨some "this", "this", false⟩ [⟨some "x", "number", false⟩] "this" ["x"]
      rfl rfl rfl (Or.inl rfl)).1).trans (by decide)
  · exact ((claim_C3.2.1
      ⟨.methodDecl, false, false, false, false, [⟨some "x", "number", false⟩], true,
        [], [], false⟩ ["x"] (by decide)).1 (by decide)).trans (by decide)
  · exact (claim_C3.2.1
      ⟨.methodDecl, false, false, false, false, [⟨some "this", "void", false⟩,
        ⟨some "x", "number", false⟩], true, [], [], false⟩ ["this", "x"]
      (by decide)).2.2 ⟨some "this", "void", false⟩ (by decide) rfl
  · exact claim_C3.2.2 ⟨"", 0, [], [], [], false⟩ "Foo"
      (some ⟨["a"], [], [], [⟨false, false, 1, "\ts1;\n"⟩]⟩) none false
      "Foo.constructor = function(self, a)\n\ts1;\n\treturn self;\nend;\n" rfl

/-- Claim C4: a generator function (generator marker set, not a
constructor or accessor, and not an arrow function) is emitted as an
iterator object whose `next` member is a wrapped coroutine running the
original body followed by the unconditional
`repeat coroutine.yield(\x7b done = true \x7d) until false;` loop; and
in the coroutine semantics of that template, once the body's execution
is exhausted every subsequent `next` call yields the done sentinel
without ever returning to (re-executing) the body. -/
theorem claim_C4 (state : CompilerState) (node : FunctionNode) (name : String)
    (body : FunctionBody) (bodyStr : String)
    (hk1 : node.kind ≠ .getAccessor) (hk2 : node.kind ≠ .setAccessor)
    (hk3 : node.kind ≠ .constructorDecl) (hk4 : node.kind ≠ .arrowFunction)
    (hg : node.generatorFlag = true)
    (hi : node.returnTypeIsIterableIterator = true)
    (hb : compileFunctionBody
        (compileFunctionHeaderState state node name).2.2.pushIndent.pushIndent body node
        node.initializerData = Except.ok bodyStr) :
    compileFunction state node name body
      = Except.ok ((compileFunctionHeaderState state node name).1
          ++ "function(" ++ joinComma (compileFunctionParamNames node) ++ ")"
          ++ generatorBodyWrap (compileFunctionHeaderState state node name).2.2 bodyStr
          ++ "end" ++ (compileFunctionHeaderState state node name).2.1,
         (compileFunctionHeaderState state node name).2.2.popIdStack)
    ∧ (∀ (vals : List String) (k : Nat), vals.length ≤ k →
        genRun (GenCoState.bodyRunning vals) k
          = (GenYield.doneSentinel, GenCoState.doneLoop)) := by
  constructor
  · have hgen : compileFunctionIsGenerator node = true := by
      simp [compileFunctionIsGenerator, hg, hk1, hk2, hk3, hk4]
    rcases hh : compileFunctionHeaderState state node name with ⟨res, bw, st⟩
    rw [hh] at hb
    simp only [compileFunction, hh, hgen, hi, Bool.not_true, Bool.false_eq_true,
      if_false, if_true, hb]
  · intro vals k hk
    exact genRun_done_after_body vals k hk

/-- Witness for C4: a concrete anonymous generator function expression
with one parameter and block body `B` emits exactly the iterator
template, and the third and later `next` calls on a two-yield body all
return the done sentinel. -/
theorem claim_C4_witness :
    compileFunction ⟨"", 0, [], [], [], false⟩
        ⟨.functionExpr, false, false, true, true, [], false, ["p"], [], false⟩ ""
        (.block "B")
      = Except.ok ("function(p)\n\treturn \x7b\n\t\tnext = coroutine.wrap(function()\nB\t\t\trepeat coroutine.yield(\x7b done = true \x7d) until false;\n\t\tend);\n\t\x7d;\nend",
          ⟨"", 0, [], [], [], false⟩)
    ∧ genRun (GenCoState.bodyRunning ["x", "y"]) 4
        = (GenYield.doneSentinel, GenCoState.doneLoop) := by
  constructor
  · exact (claim_C4 ⟨"", 0, [], [], [], false⟩
      ⟨.functionExpr, false, false, true, true, [], false, ["p"], [], false⟩ ""
      (.block "B") "\nB\t\t" (by decide) (by decide) (by decide) (by decide) rfl rfl
      rfl).1.trans rfl
  · exact (claim_C4 ⟨"", 0, [], [], [], false⟩
      ⟨.functionExpr, false, false, true, true, [], false, ["p"], [], false⟩ ""
      (.block "B") "\nB\t\t" (by decide) (by decide) (by decide) (by decide) rfl rfl
      rfl).2 ["x", "y"] 4 (by decide)

/-- Claim C9: parameter lowering emits, after each parameter's binding,
a conditional statement comparing the bound value to `nil` and, when
equal, assigning the lowered default expression (with its prerequisite
statements) to the binding; the statements appear in declaration order,
each defaulted parameter's conditional inside the body after all
earlier parameters' bindings, so a later parameter's default may
reference an earlier parameter. -/
theorem claim_C9 (tsParams : List TsParameter) :
    (transformParameters tsParams).statements = statementsOfParams tsParams
    ∧ (transformParameters tsParams).parameters = parametersOf tsParams
    ∧ (∀ p ini, p ∈ tsParams → p.initializer = some ini →
        LuaStatement.ifStatement
          (.binary (.identifier p.name) "==" .nilLiteral)
          (ini.prereqs ++ [.assignment (.identifier p.name) ini.transformed]) []
          ∈ (transformParameters tsParams).statements) := by
  refine ⟨?_, ?_, ?_⟩
  · rw [transformParameters_characterization]
  · rw [transformParameters_characterization]
  · intro p ini hp hini
    rw [transformParameters_characterization]
    have hmem : transformParamInitializer (.identifier p.name) ini ∈ paramStatementsOf p := by
      simp [paramStatementsOf, hini]
    exact mem_statementsOfParams tsParams p hp _ hmem

/-- Witness for C9: the spec scenario `(x: number, y: number = x + 1)`
lowers to parameter slots `x, y` and the single body statement
`if y == nil then y = x + 1 end`, placed after the binding of `x`. -/
theorem claim_C9_witness :
    (transformParameters [⟨"x", false, none⟩,
        ⟨"y", false, some ⟨.binary (.identifier "x") "+" (.otherLuaExpr "1"), []⟩⟩]).statements
      = [LuaStatement.ifStatement (.binary (.identifier "y") "==" .nilLiteral)
          [.assignment (.identifier "y") (.binary (.identifier "x") "+" (.otherLuaExpr "1"))]
          []]
    ∧ (transformParameters [⟨"x", false, none⟩,
        ⟨"y", false, some ⟨.binary (.identifier "x") "+" (.otherLuaExpr "1"), []⟩⟩]).parameters
      = [.identifier "x", .identifier "y"]
    ∧ LuaStatement.ifStatement (.binary (.identifier "y") "==" .nilLiteral)
          [.assignment (.identifier "y") (.binary (.identifier "x") "+" (.otherLuaExpr "1"))]
          []
        ∈ (transformParameters [⟨"x", false, none⟩,
            ⟨"y", false, some ⟨.binary (.identifier "x") "+" (.otherLuaExpr "1"), []⟩⟩]).statements := by
  refine ⟨?_, ?_, ?_⟩
  · exact (claim_C9 [⟨"x", false, none⟩,
      ⟨"y", false, some ⟨.binary (.identifier "x") "+" (.otherLuaExpr "1"), []⟩⟩]).1.trans rfl
  · exact (claim_C9 [⟨"x", false, none⟩,
      ⟨"y", false, some ⟨.binary (.identifier "x") "+" (.otherLuaExpr "1"), []⟩⟩]).2.1.trans rfl
  · exact (claim_C9 [⟨"x", false, none⟩,
      ⟨"y", false, some ⟨.binary (.identifier "x") "+" (.otherLuaExpr "1"), []⟩⟩]).2.2
      ⟨"y", false, some ⟨.binary (.identifier "x") "+" (.otherLuaExpr "1"), []⟩⟩
      ⟨.binary (.identifier "x") "+" (.otherLuaExpr "1"), []⟩ (by simp) rfl

/-- Witness for C10: `arr[1e1]` (value 10) compiles its index as the
expression `1e1` with runtime offset, yielding `1e1 + 1` rather than
the folded `11`. -/
theorem claim_C10_witness :
    elementAccessArgStr ⟨"", 0, [], [], [], false⟩ (.ident "arr" [] ⟨true, false, none⟩)
        (.numericLiteral "1e1" 10 "1e1" ⟨false, true, none⟩) = "1e1 + 1" :=
  ((claim_C10 ⟨"", 0, [], [], [], false⟩ (.ident "arr" [] ⟨true, false, none⟩)
    "1e1" 10 "1e1" ⟨false, true, none⟩ (by decide)).2 rfl rfl).trans (by decide)

end RobloxTS
